import Mathlib

/-!
Formal verification of the core data-access layer of the pivot repository:
the struct-to-record mapper (`dal.Collection.MakeRecord`), the model
migration logic (`mapper.Model.Migrate`, `mapper.Model.CreateOrUpdate`),
the HTTP-facing helpers of `server.go` (`filterFromRequest`,
`injectRequestParamsIntoCollection`, the query handler join-spec check and
the batch schema-creation handler), and the SQL aggregation backend
(`SqlBackend.Count` / `aggregateFloat` / `extractSingleFloat64`).

The Go source is embedded shallowly: Go interface values that may be nil
become an explicit `vnil` constructor, Go `(value, error)` pairs become
pairs or `Except`, backend calls become oracle functions passed in as
structure fields, and observable side effects (which backend calls a
handler performed, which HTTP responses it wrote) become explicit result
lists.  Code of the repository that is not under src/ (the `filter`
package, `getFieldsForStruct`, `Collection.Diff`, the error classifiers)
is modelled from the specification; each such definition is marked
`Modelled from the spec:` in its doc comment.
-/

/-- A Go `interface{}` value as it flows through the mapper.  `vnil` is the
nil interface (the initial state of `Record.ID` and the result of reading a
nil-valued field). -/
inductive Value where
  | vnil
  | vint (n : Int)
  | vstr (s : String)
  | vbool (b : Bool)
deriving DecidableEq, Repr

/-- The Go zero-value test `value == reflect.Zero(reflect.TypeOf(value))`
used by the omit-empty rule in `MakeRecord` (src/dal/collection.go:105). -/
def Value.isZero : Value → Bool
  | .vnil => true
  | .vint n => n = 0
  | .vstr s => s = ""
  | .vbool b => b = false

/-- Modelled from the spec: one exported struct field of the application
value, as described by the field descriptors that `getFieldsForStruct`
(not under src/) produces for `MakeRecord`: the struct field name (used by
`structs.FieldOk`), the mapping annotation (tag) name under which the field
is keyed, its value, and the omit-empty and identity annotations. -/
structure StructField where
  name : String
  tag : String
  value : Value
  omitEmpty : Bool
  identity : Bool
deriving DecidableEq, Repr

/-- `dal.Record`: identity value plus field mapping.  `id = vnil` models the
nil interface before any identity was resolved. -/
structure Record where
  id : Value
  fields : List (String × Value)
deriving DecidableEq, Repr

/-- Go map assignment `m[k] = v`: replace an existing entry, else add. -/
def setAssoc : List (String × Value) → String → Value → List (String × Value)
  | [], k, v => [(k, v)]
  | kv :: rest, k, v =>
      if kv.1 = k then (k, v) :: rest else kv :: setAssoc rest k v

/-- `Record.Set` (dal package): store a value under a field key. -/
def Record.set (r : Record) (k : String) (v : Value) : Record :=
  { r with fields := setAssoc r.fields k v }

/-- Go `delete(m, k)`: remove the entry with the given key, if present. -/
def delAssoc (l : List (String × Value)) (k : String) : List (String × Value) :=
  l.filter (fun kv => kv.1 ≠ k)

/-- `delete(record.Fields, k)` as used in `MakeRecord`. -/
def Record.del (r : Record) (k : String) : Record :=
  { r with fields := delAssoc r.fields k }

/-- Modelled from the spec: `dal.Field` (src/ lacks dal/field.go).  Only the
name participates in `MakeRecord`; type, required and identity attributes
participate in the schema diff. -/
structure MField where
  name : String
  ftype : String
  required : Bool
  identity : Bool
deriving DecidableEq, Repr

/-- `dal.Collection` as declared in src/dal/collection.go (the mapper-side
variant: name, fields, identity field name and type). -/
structure MCollection where
  name : String
  fields : List MField
  identityField : String
  identityFieldType : String
deriving DecidableEq, Repr

/-- The per-descriptor loop of `Collection.MakeRecord`
(src/dal/collection.go:101-115): skip empty omit-empty values, store an
explicitly annotated identity value into `record.ID`, and copy every other
field whose tag names a collection field into the field mapping.  The list
order stands in for one Go map iteration order. -/
def makeRecordLoop (actualFieldNames : List String) :
    List StructField → Record → Record
  | [], r => r
  | f :: rest, r =>
      if f.omitEmpty && f.value.isZero then
        makeRecordLoop actualFieldNames rest r
      else if f.identity then
        makeRecordLoop actualFieldNames rest { r with id := f.value }
      else if actualFieldNames.contains f.tag then
        makeRecordLoop actualFieldNames rest (r.set f.tag f.value)
      else
        makeRecordLoop actualFieldNames rest r

/-- Fallback (b) of `MakeRecord` (src/dal/collection.go:119-127): if no
explicit identity was assigned, take the first descriptor whose tag equals
the collection identity field, store its value as the ID and delete its key
from the field mapping. -/
def makeRecordPhase2 (c : MCollection) (l : List StructField) (r : Record) : Record :=
  if r.id = Value.vnil then
    match l.find? (fun g => g.tag = c.identityField) with
    | some g => { r.del g.tag with id := g.value }
    | none => r
  else r

/-- Fallback (c) of `MakeRecord` (src/dal/collection.go:130-135): if the ID
is still nil, look up the struct field literally named "ID" by
`structs.FieldOk`, take its value, and delete the literal key "ID" from the
field mapping (the literal key, not the tag the field was stored under). -/
def makeRecordPhase3 (l : List StructField) (r : Record) : Record :=
  if r.id = Value.vnil then
    match l.find? (fun g => g.name = "ID") with
    | some g => { r.del "ID" with id := g.value }
    | none => r
  else r

/-- `Collection.MakeRecord` (src/dal/collection.go:82-141) on an input that
passed the pointer-to-struct validation, starting from `NewRecord(nil)`. -/
def makeRecord (c : MCollection) (l : List StructField) : Record :=
  let actualFieldNames := c.fields.map (fun f => f.name)
  makeRecordPhase3 l (makeRecordPhase2 c l (makeRecordLoop actualFieldNames l ⟨Value.vnil, []⟩))

/-- `strings.Split` for a single-character separator, on the character
list.  `strings.Split("", sep)` returns `[""]`, hence the `[[]]` base. -/
def splitChars (sep : Char) : List Char → List (List Char)
  | [] => [[]]
  | ch :: rest =>
      match splitChars sep rest with
      | grp :: grps => if ch = sep then [] :: grp :: grps else (ch :: grp) :: grps
      | [] => [[]]

/-- Go `strings.Split(s, sep)` for the single-character separators used by
server.go (`:`, `.`, `,`, `/`). -/
def splitOnChar (sep : Char) (s : String) : List String :=
  (splitChars sep s.toList).map (fun cs => String.mk cs)

/-- `stringutil.SplitPair(s, sep)`: split at the first separator; when the
separator does not occur the second component is empty. -/
def splitPairChars (sep : Char) : List Char → List Char × Option (List Char)
  | [] => ([], none)
  | ch :: rest =>
      if ch = sep then ([], some rest)
      else
        let (a, b) := splitPairChars sep rest
        (ch :: a, b)

/-- `stringutil.SplitPair` on strings (used to split `collection.field`
join specs in the query handler). -/
def splitPair (sep : Char) (s : String) : String × String :=
  let (a, b) := splitPairChars sep s.toList
  (String.mk a, String.mk (b.getD []))

/-- The filter condition operators of the backend-neutral query language
(spec section 3; the `filter` package is not under src/).  The substring
anchors are named `startsWith` and `endsWith` here. -/
inductive Operator where
  | is
  | isNot
  | contains
  | startsWith
  | endsWith
  | gt
  | gte
  | lt
  | lte
deriving DecidableEq, Repr

/-- One filter condition: field, operator, values. -/
structure Condition where
  field : String
  op : Operator
  values : List String
deriving DecidableEq, Repr

/-- `filter.Filter`: conditions, sort, projection, limit and offset.
`limit <= 0` renders as unbounded. -/
structure QFilter where
  criteria : List Condition
  sort : List String
  fields : List String
  limit : Int
  offset : Int
deriving DecidableEq, Repr

/-- `filter.New()`: the empty filter. -/
def filterNew : QFilter := ⟨[], [], [], 0, 0⟩

/-- Modelled from the spec: the match-everything filter produced for the
literal query token `all`; its own limit renders as unbounded. -/
def filterAll : QFilter := filterNew

/-- Modelled from the spec: the compact textual operator tokens of the
filter string grammar. -/
def parseOperator : String → Option Operator
  | "is" => some .is
  | "eq" => some .is
  | "not" => some .isNot
  | "ne" => some .isNot
  | "contains" => some .contains
  | "prefix" => some .startsWith
  | "suffix" => some .endsWith
  | "gt" => some .gt
  | "gte" => some .gte
  | "lt" => some .lt
  | "lte" => some .lte
  | _ => none

/-- Modelled from the spec: the `field/operator/value` path-segment grammar
of `filter.Parse`; segments must come in triples. -/
def parseSegments : List String → Except String (List Condition)
  | [] => .ok []
  | fld :: op :: v :: rest =>
      match parseOperator op with
      | some o =>
          match parseSegments rest with
          | .ok cs => .ok (⟨fld, o, [v]⟩ :: cs)
          | .error e => .error e
      | none => .error ("filter parse error: unrecognized operator " ++ op)
  | _ => .error "filter parse error: segments not in field/operator/value triples"

/-- Modelled from the spec: `filter.Parse` (the filter package is not under
src/).  The literal token `all` yields the match-everything filter; any
other string is read as `field/operator/value` path segments. -/
def filterParse (s : String) : Except String QFilter :=
  if s = "all" then .ok filterAll
  else
    match parseSegments (splitOnChar '/' s) with
    | .ok cs => .ok { filterNew with criteria := cs }
    | .error e => .error e

/-- Modelled from the spec: `filter.FromMap` (the filter package is not
under src/): a flat key-to-value mapping in which every pair becomes one
equality condition. -/
def filterFromMap (kvs : List (String × String)) : Except String QFilter :=
  .ok { filterNew with criteria := kvs.map (fun kv => ⟨kv.1, Operator.is, [kv.2]⟩) }

/-- The dynamic `filterIn interface{}` argument of `filterFromRequest`
(src/server.go:596): a query string, an already-built filter, or a generic
key/value mapping from a POST body. -/
inductive FilterIn where
  | str (s : String)
  | filt (f : QFilter)
  | mapIn (kvs : List (String × String))

/-- The request parameters consulted by server.go handlers, as delivered by
`httputil.Q` (absent string parameters read as `""`) and `httputil.QInt`
(absent integer parameters fall back to a supplied default). -/
structure Req where
  limit : Option Int
  offset : Option Int
  sort : String
  fields : String
  index : String
  keys : String
  joiner : String
deriving DecidableEq, Repr

/-- `var DefaultResultLimit = 25` (src/server.go:31). -/
def DefaultResultLimit : Int := 25

/-- `filterFromRequest` (src/server.go:596-639): build a filter from the
query input, then unconditionally overwrite its limit and offset with the
request parameters (falling back to the caller-supplied default limit), and
apply `sort` and `fields` overrides when present. -/
def filterFromRequest (req : Req) (filterIn : FilterIn) (defaultLimit : Int) :
    Except String QFilter :=
  let limit := req.limit.getD defaultLimit
  let offset := req.offset.getD 0
  let parsed : Except String QFilter :=
    match filterIn with
    | .str s => filterParse s
    | .filt f => .ok f
    | .mapIn kvs =>
        match filterFromMap kvs with
        | .ok f => .ok f
        | .error e => .error ("filter parse error: " ++ e)
  match parsed with
  | .error e => .error e
  | .ok f =>
      let f := { f with limit := limit, offset := offset }
      let f := if req.sort ≠ "" then { f with sort := splitOnChar ',' req.sort } else f
      let f := if req.fields ≠ "" then { f with fields := splitOnChar ',' req.fields } else f
      .ok f

/-- Projection used to state limit facts about `filterFromRequest` results. -/
def getLimit : Except String QFilter → Option Int
  | .ok f => some f.limit
  | .error _ => none

/-- Projection used to state condition facts about `filterFromRequest`
results. -/
def getCriteria : Except String QFilter → Option (List Condition)
  | .ok f => some f.criteria
  | .error _ => none

/-- Modelled from the spec: the server-side `dal.Collection` (the
sniperkit dal package imported by src/server.go is not under src/; the
mapper-side variant in src/dal/collection.go lacks the index fields).
Fields per spec section 3: name, fields, identity field name/type, index
name, compound index keys and their joiner. -/
structure SCollection where
  name : String
  fields : List MField
  identityField : String
  identityFieldType : String
  indexName : String
  indexCompoundFields : List String
  indexCompoundFieldJoiner : String
deriving DecidableEq, Repr

/-- `injectRequestParamsIntoCollection` (src/server.go:576-594): shallow
copy the registered collection, then overwrite the index name, compound
index keys and key joiner whenever the corresponding request parameter is
present (non-empty).  All writes target the copy; the registered value is
returned to the caller untouched, which the purity of this embedding makes
implicit. -/
def injectRequestParamsIntoCollection (req : Req) (collection : SCollection) :
    SCollection :=
  let c := collection
  let c := if req.index ≠ "" then { c with indexName := req.index } else c
  let c := if req.keys ≠ "" then { c with indexCompoundFields := splitOnChar ',' req.keys } else c
  let c := if req.joiner ≠ "" then { c with indexCompoundFieldJoiner := req.joiner } else c
  c

/-- Which persistence operation `Model.CreateOrUpdate` dispatches to. -/
inductive ModelAction where
  | create
  | update
deriving DecidableEq, Repr

/-- `Model.CreateOrUpdate` (src/mapper/model.go:129-135):
`if id == nil || !self.Exists(id) { Create } else { Update }`.  The backend
existence test is an oracle; the second component records the ids on which
`Exists` was invoked, so the short-circuit of `||` (a nil id never reaches
`Exists`) is observable. -/
def createOrUpdate (dbExists : Value → Bool) (id : Option Value) :
    ModelAction × List Value :=
  match id with
  | none => (.create, [])
  | some v => if !dbExists v then (.create, [v]) else (.update, [v])

/-- Backend lookup errors seen by `Model.Migrate` and the server handlers. -/
inductive BErr where
  | collectionNotFound
  | other (msg : String)
deriving DecidableEq, Repr

/-- Modelled from the spec: `dal.IsCollectionNotFoundErr` (not under src/):
recognizes exactly the "collection not found" lookup error; a nil error is
not one. -/
def isCollectionNotFoundErr : Option BErr → Bool
  | some .collectionNotFound => true
  | _ => false

/-- One schema discrepancy reported by the collection diff. -/
inductive SchemaDelta where
  | fieldMissing (name : String)
  | fieldMismatch (name : String)
deriving DecidableEq, Repr

/-- Whether a desired field's observable attributes differ from the
actual field with the same name. -/
def fieldAttrsDiffer (desired actual : MField) : Bool :=
  desired.ftype ≠ actual.ftype || desired.required ≠ actual.required ||
    desired.identity ≠ actual.identity

/-- Modelled from the spec: `Collection.Diff` (not under src/): walk the
desired fields; a name absent from the actual collection is `fieldMissing`,
differing attributes are `fieldMismatch`; fields only present in the actual
collection are ignored.  The actual collection is a Go pointer that
`Model.Migrate` can leave nil: walking any desired field against a nil
actual collection dereferences nil, which this embedding surfaces as
`none` (a Go runtime panic); with no desired fields nothing is walked and
no delta is produced. -/
def collectionDiff (desired : MCollection) (actual : Option MCollection) :
    Option (List SchemaDelta) :=
  match desired.fields, actual with
  | [], _ => some []
  | _ :: _, none => none
  | fs, some a =>
      some (fs.foldr
        (fun f acc =>
          match a.fields.find? (fun g => g.name = f.name) with
          | none => SchemaDelta.fieldMissing f.name :: acc
          | some g => if fieldAttrsDiffer f g then SchemaDelta.fieldMismatch f.name :: acc else acc)
        [])

/-- The backend operations `Model.Migrate` performs, with explicit state
passing so that the re-fetch after `CreateCollection` can observe the
created collection. -/
structure MBackend (σ : Type) where
  getCollection : String → σ → (Option MCollection × Option BErr) × σ
  createCollection : MCollection → σ → Option BErr × σ

/-- The outcome of `Model.Migrate`: success, a backend error returned as
is, the schema-mismatch error built from a non-empty diff, or the runtime
panic caused by diffing against a nil actual collection. -/
inductive MigrateOut where
  | ok
  | backendErr (e : BErr)
  | schemaMismatch (deltas : List SchemaDelta)
  | panicNilCollection
deriving DecidableEq, Repr

/-- The tail of `Model.Migrate` (src/mapper/model.go:73-83): diff the
desired collection against the actual baseline; a nil diff is success and
a non-empty diff is the fatal schema-mismatch error. -/
def migrateDiffCheck (desired : MCollection) (actual : Option MCollection) : MigrateOut :=
  match collectionDiff desired actual with
  | none => .panicNilCollection
  | some [] => .ok
  | some (d :: ds) => .schemaMismatch (d :: ds)

/-- `Model.Migrate` (src/mapper/model.go:55-84).  Faithful to the source
branch structure: when the first lookup reports "collection not found" the
collection is created and re-fetched (errors from either step returned);
in every other case — including a lookup that failed with a different
error — the `else` branch takes the looked-up value, the error included
with it is dropped, and control proceeds to the diff. -/
def migrate {σ : Type} (db : MBackend σ) (s : σ) (desired : MCollection) :
    MigrateOut × σ :=
  let ((c, err), s1) := db.getCollection desired.name s
  if isCollectionNotFoundErr err then
    match db.createCollection desired s1 with
    | (none, s2) =>
        let ((c2, err2), s3) := db.getCollection desired.name s2
        match err2 with
        | none => (migrateDiffCheck desired c2, s3)
        | some e => (.backendErr e, s3)
    | (some e, s2) => (.backendErr e, s2)
  else
    (migrateDiffCheck desired c, s1)

/-- `filter.Aggregation`: the aggregate functions (filter package not under
src/; the names mirror `filter.Count`, `filter.Sum`, ...). -/
inductive Aggregation where
  | count
  | sum
  | minimum
  | maximum
  | average
deriving DecidableEq, Repr

/-- `filter.Aggregate`: one aggregation request over one field. -/
structure Aggregate where
  aggregation : Aggregation
  field : String
deriving DecidableEq, Repr

/-- The statement `SqlBackend.aggregate` renders and executes: collection
name, group-by fields, aggregation requests and the driving filter.  The
query generator pipeline (`filter/generators`, not under src/) is
abstracted as this normalized statement description handed to the
executor oracle. -/
structure QuerySpec where
  collection : String
  groupBy : List String
  aggregates : List Aggregate
  flt : QFilter
deriving DecidableEq, Repr

/-- One scanned result cell: SQL NULL, a numeric value, or a cell that
`rows.Scan` cannot convert.  A single-aggregate statement yields one cell
per row, so a result set is a list of cells. -/
inductive ScanCell where
  | null
  | val (x : Rat)
  | scanErr (msg : String)
deriving DecidableEq, Repr

/-- `SqlBackend.extractSingleFloat64` (src, backends aggregator file):
scan the first result row into a `sql.NullFloat64` — SQL NULL leaves the
zero value, so NULL reads as 0 — and return 0 with no error when no row
matched. -/
def extractSingleFloat64 : List ScanCell → Except String Rat
  | [] => .ok 0
  | c :: _ =>
      match c with
      | .null => .ok 0
      | .val x => .ok x
      | .scanErr m => .error m

/-- The filter `SqlBackend.aggregate` drives the statement with: the first
variadic filter argument, or a fresh `filter.New()` when none is given. -/
def headFilter (f : List QFilter) : QFilter :=
  match f with
  | [] => filterNew
  | g :: _ => g

/-- The SQL backend, reduced to its statement executor: `self.db.Query`
plus row scanning, as an oracle from the rendered statement description to
the scanned cells (or a query error). -/
structure SqlBackend where
  query : QuerySpec → Except String (List ScanCell)

/-- `SqlBackend.aggregateFloat` (src, backends aggregator file): run the
single-aggregate statement built from exactly one `filter.Aggregate` and
extract the single float cell. -/
def SqlBackend.aggregateFloat (self : SqlBackend) (collection : SCollection)
    (aggregation : Aggregation) (field : String) (f : List QFilter) :
    Except String Rat :=
  match self.query ⟨collection.name, [], [⟨aggregation, field⟩], headFilter f⟩ with
  | .ok rows => extractSingleFloat64 rows
  | .error e => .error e

/-- `typeutil.IsZero` on the identity-field string: the zero string is the
empty string. -/
def isZeroStr (s : String) : Bool := s = ""

/-- The Go conversion `uint64(v)` applied to the aggregate float (exact for
the whole-number counts the claims concern; negative floats clamp to 0
here, where Go leaves them implementation-defined). -/
def floatToUint64 (x : Rat) : Nat := x.floor.toNat

/-- `SqlBackend.Count` (src, backends aggregator file): count the identity
field, or the literal `1` when the collection declares none. -/
def SqlBackend.Count (self : SqlBackend) (collection : SCollection)
    (f : List QFilter) : Except String Nat :=
  let whatToCount := collection.identityField
  let whatToCount := if isZeroStr whatToCount then "1" else whatToCount
  match self.aggregateFloat collection .count whatToCount f with
  | .ok v => .ok (floatToUint64 v)
  | .error e => .error e

/-- `SqlBackend.Sum` (src, backends aggregator file). -/
def SqlBackend.Sum (self : SqlBackend) (collection : SCollection)
    (field : String) (f : List QFilter) : Except String Rat :=
  self.aggregateFloat collection .sum field f

/-- `SqlBackend.Minimum` (src, backends aggregator file). -/
def SqlBackend.Minimum (self : SqlBackend) (collection : SCollection)
    (field : String) (f : List QFilter) : Except String Rat :=
  self.aggregateFloat collection .minimum field f

/-- `SqlBackend.Maximum` (src, backends aggregator file). -/
def SqlBackend.Maximum (self : SqlBackend) (collection : SCollection)
    (field : String) (f : List QFilter) : Except String Rat :=
  self.aggregateFloat collection .maximum field f

/-- `SqlBackend.Average` (src, backends aggregator file). -/
def SqlBackend.Average (self : SqlBackend) (collection : SCollection)
    (field : String) (f : List QFilter) : Except String Rat :=
  self.aggregateFloat collection .average field f

/-- A SQL backend whose every statement matches zero rows. -/
def emptyRowsDb : SqlBackend := ⟨fun _ => .ok []⟩

/-- One backend/core operation performed by the query handler, in order:
used to show the join-arity rejection happens before any of them. -/
inductive BCall where
  | bFilterParse
  | bGetCollection (name : String)
  | bQuery (name : String)
deriving DecidableEq, Repr

/-- What the query handler writes to the response: a record set, or an
error with the HTTP status it was sent with (0 stands for the default
status `httputil.RespondJSON` picks when none is given). -/
inductive QResp where
  | ok (records : List Record)
  | err (status : Nat) (msg : String)
deriving DecidableEq, Repr

/-- The backend as seen by the query handler: collection lookup, the
search capability test, single-collection query, and the meta-index join
(`backends.NewMetaIndex(...).Query`, not under src/, treated as a
collaborator capability per spec section 4.6). -/
structure QueryDb where
  getCollection : String → Except BErr SCollection
  withSearch : Bool
  query : String → QFilter → Except String (List Record)
  metaQuery : String → String → String → String → QFilter → Except String (List Record)

/-- The body of the query handler after the join-spec split
(src/server.go:183-247): build the filter from the request, look up the
(left) collection, patch it with request parameters, and run either the
single query or — when a right-hand collection was named — the meta-index
join, looking up the right-hand collection first.  The second component
lists the parse/lookup/query operations performed, in order. -/
def queryHandlerRest (db : QueryDb) (name leftField rightName rightField : String)
    (query : FilterIn) (req : Req) : QResp × List BCall :=
  match filterFromRequest req query DefaultResultLimit with
  | .error e => (.err 400 e, [.bFilterParse])
  | .ok f =>
      match db.getCollection name with
      | .error e =>
          (if e = BErr.collectionNotFound then QResp.err 404 "collection not found"
           else QResp.err 0 "lookup error",
           [.bFilterParse, .bGetCollection name])
      | .ok collection =>
          let collection := injectRequestParamsIntoCollection req collection
          if db.withSearch then
            if rightName = "" then
              match db.query collection.name f with
              | .ok recs => (.ok recs, [.bFilterParse, .bGetCollection name, .bQuery name])
              | .error e => (.err 0 e, [.bFilterParse, .bGetCollection name, .bQuery name])
            else
              match db.getCollection rightName with
              | .error _ =>
                  (.err 0 "right-side lookup error",
                   [.bFilterParse, .bGetCollection name, .bGetCollection rightName])
              | .ok _ =>
                  match db.metaQuery name leftField rightName rightField f with
                  | .ok recs =>
                      (.ok recs,
                       [.bFilterParse, .bGetCollection name, .bGetCollection rightName,
                        .bQuery name, .bQuery rightName])
                  | .error e =>
                      (.err 0 e,
                       [.bFilterParse, .bGetCollection name, .bGetCollection rightName,
                        .bQuery name, .bQuery rightName])
          else
            (.err 400 "Backend does not support complex queries.",
             [.bFilterParse, .bGetCollection name])

/-- `queryHandler` (src/server.go:163-247).  The collection path parameter
is split on `:`; one name queries a single collection, two names (each
optionally `collection.joinField`) set up a join, and any other count is
rejected with HTTP 400 before the filter is parsed or the backend is
touched. -/
def queryHandler (db : QueryDb) (collectionParam : String) (query : FilterIn)
    (req : Req) : QResp × List BCall :=
  let collections := splitOnChar ':' collectionParam
  match collections with
  | [n] => queryHandlerRest db n "" "" "" query req
  | [l, r] =>
      let (name, leftField) := splitPair '.' l
      let (rightName, rightField) := splitPair '.' r
      queryHandlerRest db name leftField rightName rightField query req
  | _ => (.err 400 "Only two (2) joined collections are supported", [])

/-- Collection-creation errors: the duplicate-creation error and anything
else. -/
inductive CErr where
  | existsErr
  | otherErr (msg : String)
deriving DecidableEq, Repr

/-- Modelled from the spec: `dal.IsExistError` (not under src/):
recognizes exactly the duplicate-creation error. -/
def isExistError : CErr → Bool
  | .existsErr => true
  | .otherErr _ => false

/-- What the batch schema-creation handler writes to the response stream,
in order. -/
inductive SchemaResp where
  | createdCollection (name : String)
  | conflictErr (e : CErr)
  | defaultErr (e : CErr)
  | badRequestErrors (es : List CErr)
deriving DecidableEq, Repr

/-- The creation loop of the POST /api/schema handler
(src/server.go:525-547), with the original request size `origLen` fixed
up front (the Go code tests `len(collections) == 1` against the request
list, which the loop does not modify).  Accumulators: responses written so
far, collected errors, and the collections creation was attempted on. -/
def schemaPostGo (create : SCollection → Option CErr) (origLen : Nat) :
    List SCollection → List SchemaResp → List CErr → List SCollection →
    List SchemaResp × List SCollection
  | [], resps, errs, attempted =>
      (resps ++ (if errs.isEmpty then [] else [.badRequestErrors errs]), attempted)
  | col :: rest, resps, errs, attempted =>
      match create col with
      | none =>
          schemaPostGo create origLen rest (resps ++ [.createdCollection col.name])
            errs (attempted ++ [col])
      | some e =>
          if origLen = 1 then
            (resps ++ [if isExistError e then .conflictErr e else .defaultErr e],
             attempted ++ [col])
          else
            schemaPostGo create origLen rest resps (errs ++ [e]) (attempted ++ [col])

/-- The POST /api/schema handler (src/server.go:503-547) after the request
body has been decoded into a collection list: attempt every creation,
respond 201 per created collection; a failure aborts with its own error
(409 on a duplicate) only when exactly one collection was requested,
otherwise failures are collected and reported together with HTTP 400. -/
def schemaPostHandler (create : SCollection → Option CErr)
    (collections : List SCollection) : List SchemaResp × List SCollection :=
  schemaPostGo create collections.length collections [] [] []

/-- C1 failing input, desired side: a collection with no fields. -/
def c1Desired : MCollection := ⟨"widgets", [], "id", "int"⟩

/-- C1 failing input, backend side: every lookup fails with a connection
error — not a "collection not found" — and returns no collection. -/
def c1Backend : MBackend Unit where
  getCollection := fun _ s => ((none, some (.other "connection refused")), s)
  createCollection := fun _ s => (none, s)

/-- C2 counterexample collection: identity field `id`, data fields
`myident` and `ID`. -/
def c2Collection : MCollection :=
  ⟨"things", [⟨"myident", "int", false, false⟩, ⟨"ID", "int", false, false⟩], "id", "int"⟩

/-- C2 counterexample input: an explicitly identity-annotated field that is
also annotated omit-empty and holds its zero value, next to a struct field
literally named "ID". -/
def c2Input : List StructField :=
  [⟨"MyIdent", "myident", Value.vint 0, true, true⟩,
   ⟨"ID", "ID", Value.vint 7, false, false⟩]

/-- C2 witness collection. -/
def c2wCollection : MCollection := ⟨"things", [⟨"a", "str", false, false⟩], "id", "int"⟩

/-- C2 witness identity field: explicitly annotated, not omit-empty,
non-nil value. -/
def c2wIdent : StructField := ⟨"Key", "key", Value.vint 5, false, true⟩

/-- C2 witness input: the annotated identity field next to a field named
"ID". -/
def c2wInput : List StructField :=
  [c2wIdent, ⟨"ID", "ID", Value.vint 9, false, false⟩]

/-- C3 counterexample collection: one data field `foo`; identity field
`id` does not occur as any tag. -/
def c3Collection : MCollection := ⟨"t", [⟨"foo", "str", false, false⟩], "id", "int"⟩

/-- C3 counterexample input: one struct field literally named "ID" but
tagged `foo`. -/
def c3Input : List StructField := [⟨"ID", "foo", Value.vint 5, false, false⟩]

/-- C3 witness input for rule (a): one explicitly annotated identity field
plus an ordinary field. -/
def c3wInputA : List StructField :=
  [⟨"Key", "key", Value.vint 5, false, true⟩, ⟨"A", "a", Value.vstr "x", false, false⟩]

/-- C3 witness collection for rule (a). -/
def c3wCollectionA : MCollection :=
  ⟨"t", [⟨"key", "int", false, false⟩, ⟨"a", "str", false, false⟩], "id", "int"⟩

/-- C3 witness input for rule (c): an untagged struct field named "ID"
(tag defaults to the field name) plus an ordinary field. -/
def c3wInputC : List StructField :=
  [⟨"ID", "ID", Value.vint 3, false, false⟩, ⟨"A", "a", Value.vstr "x", false, false⟩]

/-- C3 witness collection for rule (c): the "ID" tag is a collection field,
so it is copied into the mapping before fallback (c) strips it. -/
def c3wCollectionC : MCollection :=
  ⟨"t", [⟨"ID", "int", false, false⟩, ⟨"a", "str", false, false⟩], "id", "int"⟩

/-- A request with no parameters set (every `httputil.Q` read yields `""`,
every `httputil.QInt` read falls back to its default). -/
def emptyReq : Req := ⟨none, none, "", "", "", "", ""⟩

/-- C5 witness creation oracle: creating the collection named "bad" fails
with a non-duplicate error, every other creation succeeds. -/
def c5Create : SCollection → Option CErr :=
  fun c => if c.name = "bad" then some (.otherErr "boom") else none

/-- A server-side collection named `a` with no fields. -/
def sColl (n : String) : SCollection := ⟨n, [], "id", "int", "", [], ""⟩

/-- C5 witness batch: two collections, the second of which fails. -/
def c5Batch : List SCollection := [sColl "a", sColl "bad"]

/-- C6 witness backend: no search capability, every operation fails. -/
def c6Db : QueryDb where
  getCollection := fun _ => .error .collectionNotFound
  withSearch := false
  query := fun _ _ => .error "no"
  metaQuery := fun _ _ _ _ _ => .error "no"

/-- C10: `Model.CreateOrUpdate(id, from)` dispatches to Create exactly when
the id is nil or no record exists for it, and to Update otherwise; the
short-circuit of `id == nil || !self.Exists(id)` means a nil id never
reaches the backend existence check, while a non-nil id is checked exactly
once. -/
theorem C10_createOrUpdate_dispatch (dbExists : Value → Bool) (id : Option Value) :
    ((createOrUpdate dbExists id).1 = ModelAction.create ↔
      id = none ∨ ∃ v, id = some v ∧ dbExists v = false) ∧
    ((createOrUpdate dbExists id).1 = ModelAction.update ↔
      ∃ v, id = some v ∧ dbExists v = true) ∧
    (createOrUpdate dbExists none).2 = [] ∧
    (∀ v, (createOrUpdate dbExists (some v)).2 = [v]) := by
  refine ⟨?_, ?_, rfl, fun v => by cases h : dbExists v <;> simp [createOrUpdate, h]⟩
  · cases id with
    | none => simp [createOrUpdate]
    | some v => cases h : dbExists v <;> simp [createOrUpdate, h]
  · cases id with
    | none => simp [createOrUpdate]
    | some v => cases h : dbExists v <;> simp [createOrUpdate, h]

/-- C9: `injectRequestParamsIntoCollection` returns a value that agrees
with the registered collection on every field except `IndexName`,
`IndexCompoundFields` and `IndexCompoundFieldJoiner`, and each of those is
overridden only when the corresponding request parameter is present
(non-empty); the registered value itself is an unmodified input of this
pure embedding, mirroring the shallow copy all Go writes go through. -/
theorem C9_injectRequestParams_frame (req : Req) (collection : SCollection) :
    injectRequestParamsIntoCollection req collection =
      { collection with
        indexName := if req.index = "" then collection.indexName else req.index,
        indexCompoundFields :=
          if req.keys = "" then collection.indexCompoundFields
          else splitOnChar ',' req.keys,
        indexCompoundFieldJoiner :=
          if req.joiner = "" then collection.indexCompoundFieldJoiner
          else req.joiner } := by
  unfold injectRequestParamsIntoCollection
  rcases eq_or_ne req.index "" with h1 | h1 <;>
    rcases eq_or_ne req.keys "" with h2 | h2 <;>
      rcases eq_or_ne req.joiner "" with h3 | h3 <;>
        simp [h1, h2, h3]

/-- C7: `SqlBackend.Count` drives the single-aggregate statement with a
count over the collection's identity field when that field is non-empty,
and over the literal `1` when the collection declares no identity field;
`isZeroStr` is the emptiness test `typeutil.IsZero` performs on it. -/
theorem C7_count_field (self : SqlBackend) (collection : SCollection)
    (f : List QFilter) :
    (SqlBackend.Count self collection f =
      match self.query
          ⟨collection.name, [],
           [⟨Aggregation.count,
             if collection.identityField = "" then "1" else collection.identityField⟩],
           headFilter f⟩ with
      | .ok rows =>
          match extractSingleFloat64 rows with
          | .ok v => .ok (floatToUint64 v)
          | .error e => .error e
      | .error e => .error e) ∧
    (∀ s : String, isZeroStr s = true ↔ s = "") := by
  constructor
  · have hfield : (if isZeroStr collection.identityField then "1" else collection.identityField)
        = (if collection.identityField = "" then "1" else collection.identityField) := by
      simp [isZeroStr]
    simp only [SqlBackend.Count, SqlBackend.aggregateFloat, hfield]
    cases hq : self.query
        ⟨collection.name, [],
         [⟨Aggregation.count,
           if collection.identityField = "" then "1" else collection.identityField⟩],
         headFilter f⟩ <;> simp [hq]
  · intro s
    simp [isZeroStr]

/-- C8: every scalar aggregate extracts exactly one numeric cell from the
first result row — the extraction is insensitive to every later row — a
SQL NULL cell reads as 0 rather than an error, zero matching rows yield 0
with no error (also through `aggregateFloat`), and `aggregateFloat` always
runs a statement with exactly one aggregate. -/
theorem C8_scalar_aggregate_extraction :
    (∀ (c : ScanCell) (r r' : List ScanCell),
        extractSingleFloat64 (c :: r) = extractSingleFloat64 (c :: r')) ∧
    (∀ r, extractSingleFloat64 (ScanCell.null :: r) = .ok 0) ∧
    (∀ (x : Rat) (r), extractSingleFloat64 (ScanCell.val x :: r) = .ok x) ∧
    (∀ (m : String) (r), extractSingleFloat64 (ScanCell.scanErr m :: r) = .error m) ∧
    (extractSingleFloat64 [] = .ok 0) ∧
    (∀ (collection : SCollection) (agg : Aggregation) (fld : String) (f : List QFilter),
        SqlBackend.aggregateFloat emptyRowsDb collection agg fld f = .ok 0) ∧
    (∀ (self : SqlBackend) (collection : SCollection) (agg : Aggregation)
        (fld : String) (f : List QFilter),
        SqlBackend.aggregateFloat self collection agg fld f =
          match self.query ⟨collection.name, [], [⟨agg, fld⟩], headFilter f⟩ with
          | .ok rows => extractSingleFloat64 rows
          | .error e => .error e) :=
  ⟨fun c _ _ => by cases c <;> rfl,
   fun _ => rfl, fun _ _ => rfl, fun _ _ => rfl, rfl,
   fun _ _ _ _ => rfl,
   fun _ _ _ _ _ => rfl⟩

/-- C1: the claim says a lookup error other than "collection not found" is
returned unchanged, with no creation and no diffing.  The code
(src/mapper/model.go:59-71) instead takes the `else` branch, drops the
error, adopts the (nil) looked-up collection as the actual baseline and
proceeds to the diff: on a collection with no fields it returns success
instead of the error (and dereferences nil inside the diff once the
collection has fields).  Creation is indeed not attempted. -/
theorem C1_migrate_swallows_lookup_error :
    (migrate c1Backend () c1Desired).1 = MigrateOut.ok ∧
    (migrate c1Backend () c1Desired).1 ≠
      MigrateOut.backendErr (BErr.other "connection refused") := by
  constructor
  · rfl
  · intro h
    simp [migrate, c1Backend, c1Desired, isCollectionNotFoundErr, migrateDiffCheck,
      collectionDiff] at h

/-- The limit a `filterFromRequest` call on a query string produces is
always the request limit parameter with the caller default as fallback,
whatever the parsed filter carried (src/server.go:627 overwrites it). -/
theorem filterFromRequest_limit (req : Req) (dl : Int) (s : String) (f : QFilter)
    (hp : filterParse s = .ok f) :
    getLimit (filterFromRequest req (.str s) dl) = some (req.limit.getD dl) := by
  simp only [filterFromRequest, hp]
  rcases eq_or_ne req.sort "" with h1 | h1 <;>
    rcases eq_or_ne req.fields "" with h2 | h2 <;>
      simp [h1, h2, getLimit]

/-- The conditions a `filterFromRequest` call on a query string produces
are exactly the parsed conditions: the limit/offset/sort/fields overrides
do not touch them. -/
theorem filterFromRequest_criteria (req : Req) (dl : Int) (s : String) (f : QFilter)
    (hp : filterParse s = .ok f) :
    getCriteria (filterFromRequest req (.str s) dl) = some f.criteria := by
  simp only [filterFromRequest, hp]
  rcases eq_or_ne req.sort "" with h1 | h1 <;>
    rcases eq_or_ne req.fields "" with h2 | h2 <;>
      simp [h1, h2, getCriteria]

/-- C4 counterexample: with the literal query token `all` and no explicit
limit parameter, the filter `filterFromRequest` hands back under the query
route default (`DefaultResultLimit = 25`) has limit 25 — a bounded,
caller-set default — not an unbounded limit (`limit <= 0`) as the claim
states. -/
theorem C4_all_still_gets_default_limit :
    getLimit (filterFromRequest emptyReq (.str "all") DefaultResultLimit) = some 25 ∧
    ¬((25 : Int) ≤ 0) ∧ DefaultResultLimit = 25 := by
  refine ⟨by rfl, by decide, rfl⟩

/-- C4 (amended): with no explicit limit parameter the effective limit of
the filter built from the literal token `all` equals the caller-supplied
default limit — 25 on the query routes, and unbounded only where the
caller passes 0, as the aggregate and list routes do — while parsing
`status/eq/active` produces exactly one condition
`{field: status, operator: Is, values: [active]}`. -/
theorem C4_amended_limit_and_condition (req : Req) (dl : Int)
    (h : req.limit = none) :
    getLimit (filterFromRequest req (.str "all") dl) = some dl ∧
    getCriteria (filterFromRequest req (.str "status/eq/active") dl) =
      some [⟨"status", Operator.is, ["active"]⟩] := by
  constructor
  · have := filterFromRequest_limit req dl "all" filterAll (by rfl)
    rwa [h, Option.getD_none] at this
  · have := filterFromRequest_criteria req dl "status/eq/active"
      { filterNew with criteria := [⟨"status", Operator.is, ["active"]⟩] } (by rfl)
    exact this

/-- C4 witness: the amended statement evaluated at the parameterless
request and the query route default limit. -/
theorem C4_amended_limit_and_condition_witness :
    emptyReq.limit = none ∧
    getLimit (filterFromRequest emptyReq (.str "all") DefaultResultLimit) =
      some DefaultResultLimit ∧
    getCriteria (filterFromRequest emptyReq (.str "status/eq/active") DefaultResultLimit) =
      some [⟨"status", Operator.is, ["active"]⟩] :=
  ⟨rfl,
   (C4_amended_limit_and_condition emptyReq DefaultResultLimit rfl).1,
   (C4_amended_limit_and_condition emptyReq DefaultResultLimit rfl).2⟩

/-- C6: a query request whose collection path names more than two
`:`-separated collections is rejected with HTTP 400 before any work: the
handler returns the arity error with an empty operation trace — no filter
parse, no collection lookup, no backend query. -/
theorem C6_join_arity_rejected (db : QueryDb) (param : String) (q : FilterIn)
    (req : Req) (h : 2 < (splitOnChar ':' param).length) :
    queryHandler db param q req =
      (QResp.err 400 "Only two (2) joined collections are supported", []) := by
  simp only [queryHandler]
  rcases hs : splitOnChar ':' param with _ | ⟨a, _ | ⟨b, _ | ⟨c, rest⟩⟩⟩
  · exact absurd (hs ▸ h) (by decide)
  · exact absurd (hs ▸ h) (by simp)
  · exact absurd (hs ▸ h) (by simp)
  · rfl

/-- C6 witness: three collections in the join spec, rejected with an empty
operation trace. -/
theorem C6_join_arity_rejected_witness :
    2 < (splitOnChar ':' "a:b:c").length ∧
    queryHandler c6Db "a:b:c" (FilterIn.str "all") emptyReq =
      (QResp.err 400 "Only two (2) joined collections are supported", []) :=
  ⟨by decide,
   C6_join_arity_rejected c6Db "a:b:c" (FilterIn.str "all") emptyReq (by decide)⟩

/-- When more than one collection was requested (`origLen ≠ 1` covers the
batch case) the creation loop never returns early: it attempts every
remaining collection, answers 201 per success, and closes with one 400
carrying every collected error when there was any. -/
theorem schemaPostGo_batch (create : SCollection → Option CErr) (origLen : Nat)
    (h : origLen ≠ 1) :
    ∀ (rest : List SCollection) (resps : List SchemaResp) (errs : List CErr)
      (attempted : List SCollection),
      schemaPostGo create origLen rest resps errs attempted =
        (resps ++
          (rest.filter (fun c => (create c).isNone)).map
            (fun c => SchemaResp.createdCollection c.name) ++
          (if (errs ++ rest.filterMap create).isEmpty then []
           else [SchemaResp.badRequestErrors (errs ++ rest.filterMap create)]),
         attempted ++ rest) := by
  intro rest
  induction rest with
  | nil => intro resps errs attempted; simp [schemaPostGo]
  | cons col rest ih =>
      intro resps errs attempted
      cases hc : create col with
      | none =>
          simp only [schemaPostGo, hc]
          rw [ih]
          simp [List.filter_cons, List.filterMap_cons, hc, List.append_assoc]
      | some e =>
          simp only [schemaPostGo, hc, if_neg h]
          rw [ih]
          simp [List.filter_cons, List.filterMap_cons, hc, List.append_assoc]

/-- C5: the POST /api/schema handler attempts creation of every requested
collection no matter what fails (already-created collections stay
created); with more than one collection requested the responses are the
per-item 201s followed by one 400 listing every collected failure (and no
400 when nothing failed); with exactly one collection requested, a failure
is answered immediately with its single error — 409 when the collection
already exists, the default error response otherwise. -/
theorem C5_schema_batch_reporting (create : SCollection → Option CErr)
    (cs : List SCollection) :
    (schemaPostHandler create cs).2 = cs ∧
    (1 < cs.length →
      (schemaPostHandler create cs).1 =
        (cs.filter (fun c => (create c).isNone)).map
            (fun c => SchemaResp.createdCollection c.name) ++
          (if (cs.filterMap create).isEmpty then []
           else [SchemaResp.badRequestErrors (cs.filterMap create)])) ∧
    (∀ c e, cs = [c] → create c = some e →
      (schemaPostHandler create cs).1 =
        [if isExistError e then SchemaResp.conflictErr e else SchemaResp.defaultErr e]) := by
  refine ⟨?_, ?_, ?_⟩
  · rcases eq_or_ne cs.length 1 with h1 | h1
    · obtain ⟨c, rfl⟩ := List.length_eq_one.mp h1
      cases hc : create c <;> simp [schemaPostHandler, schemaPostGo, hc]
    · have := schemaPostGo_batch create cs.length h1 cs [] [] []
      simp [schemaPostHandler, this]
  · intro hlen
    have h1 : cs.length ≠ 1 := by omega
    have := schemaPostGo_batch create cs.length h1 cs [] [] []
    simp [schemaPostHandler, this]
  · rintro c e rfl hc
    simp [schemaPostHandler, schemaPostGo, hc]

/-- C5 witness: a batch of two collections with one failure gets the 201
plus one 400 carrying the collected error, every collection attempted; the
same failing collection requested alone gets its single error response. -/
theorem C5_schema_batch_reporting_witness :
    (schemaPostHandler c5Create c5Batch).2 = c5Batch ∧
    1 < c5Batch.length ∧
    (schemaPostHandler c5Create c5Batch).1 =
      [SchemaResp.createdCollection "a",
       SchemaResp.badRequestErrors [CErr.otherErr "boom"]] ∧
    (schemaPostHandler c5Create [sColl "bad"]).1 =
      [SchemaResp.defaultErr (CErr.otherErr "boom")] := by
  refine ⟨(C5_schema_batch_reporting c5Create c5Batch).1, by decide, ?_, ?_⟩
  · rw [(C5_schema_batch_reporting c5Create c5Batch).2.1 (by decide)]
    decide
  · have := (C5_schema_batch_reporting c5Create [sColl "bad"]).2.2
      (sColl "bad") (CErr.otherErr "boom") rfl (by decide)
    rw [this]
    decide

/-- If every identity-annotated descriptor in the list is skipped by the
omit-empty rule, the mapping loop leaves `record.ID` untouched. -/
theorem makeRecordLoop_id_frame (a : List String) :
    ∀ (l : List StructField) (r : Record),
      (∀ g ∈ l, g.identity = true → (g.omitEmpty && g.value.isZero) = true) →
      (makeRecordLoop a l r).id = r.id := by
  intro l
  induction l with
  | nil => intro r _; rfl
  | cons f rest ih =>
      intro r hall
      cases hskip : (f.omitEmpty && f.value.isZero) with
      | true =>
          simp only [makeRecordLoop, hskip, if_true]
          exact ih r fun g hg h => hall g (List.mem_cons_of_mem _ hg) h
      | false =>
          have hid : f.identity = false := by
            cases hid : f.identity with
            | false => rfl
            | true => rw [hall f (List.mem_cons_self _ _) hid] at hskip; cases hskip
          cases hct : a.contains f.tag with
          | true =>
              simp only [makeRecordLoop, hskip, hid, hct]
              simp only [Bool.false_eq_true, if_false, if_true]
              exact ih _ fun g hg h => hall g (List.mem_cons_of_mem _ hg) h
          | false =>
              simp only [makeRecordLoop, hskip, hid, hct]
              simp only [Bool.false_eq_true, if_false]
              exact ih _ fun g hg h => hall g (List.mem_cons_of_mem _ hg) h

/-- If every identity-annotated descriptor that survives the omit-empty
rule carries the value `v`, and at least one such descriptor exists, the
mapping loop ends with `record.ID = v`. -/
theorem makeRecordLoop_id_set (a : List String) (v : Value) :
    ∀ (l : List StructField) (r : Record),
      (∀ g ∈ l, g.identity = true → (g.omitEmpty && g.value.isZero) = false → g.value = v) →
      (∃ g ∈ l, g.identity = true ∧ (g.omitEmpty && g.value.isZero) = false) →
      (makeRecordLoop a l r).id = v := by
  intro l
  induction l with
  | nil =>
      rintro r _ ⟨g, hg, _⟩
      exact absurd hg (List.not_mem_nil g)
  | cons f rest ih =>
      intro r hall hex
      cases hskip : (f.omitEmpty && f.value.isZero) with
      | true =>
          obtain ⟨g, hg, hgid, hgns⟩ := hex
          rcases List.mem_cons.mp hg with rfl | hg'
          · rw [hskip] at hgns; cases hgns
          · simp only [makeRecordLoop, hskip, if_true]
            exact ih r (fun g' hg' h1 h2 => hall g' (List.mem_cons_of_mem _ hg') h1 h2)
              ⟨g, hg', hgid, hgns⟩
      | false =>
          cases hid : f.identity with
          | true =>
              have hfv : f.value = v := hall f (List.mem_cons_self _ _) hid hskip
              simp only [makeRecordLoop, hskip, hid]
              simp only [Bool.false_eq_true, if_false, if_true]
              by_cases hex2 :
                  ∃ g ∈ rest, g.identity = true ∧ (g.omitEmpty && g.value.isZero) = false
              · exact ih _ (fun g' hg' h1 h2 => hall g' (List.mem_cons_of_mem _ hg') h1 h2) hex2
              · push_neg at hex2
                have hframe := makeRecordLoop_id_frame a rest { r with id := f.value }
                  (fun g' hg' h1 => by
                    have := hex2 g' hg' h1
                    cases hsk : (g'.omitEmpty && g'.value.isZero) with
                    | true => rfl
                    | false => exact absurd hsk this)
                rw [hframe]
                exact hfv
          | false =>
              obtain ⟨g, hg, hgid, hgns⟩ := hex
              rcases List.mem_cons.mp hg with rfl | hg'
              · rw [hid] at hgid; cases hgid
              · cases hct : a.contains f.tag with
                | true =>
                    simp only [makeRecordLoop, hskip, hid, hct]
                    simp only [Bool.false_eq_true, if_false, if_true]
                    exact ih _ (fun g' hg'' h1 h2 => hall g' (List.mem_cons_of_mem _ hg'') h1 h2)
                      ⟨g, hg', hgid, hgns⟩
                | false =>
                    simp only [makeRecordLoop, hskip, hid, hct]
                    simp only [Bool.false_eq_true, if_false]
                    exact ih _ (fun g' hg'' h1 h2 => hall g' (List.mem_cons_of_mem _ hg'') h1 h2)
                      ⟨g, hg', hgid, hgns⟩

/-- C2 counterexample: an input value with both an explicitly
identity-annotated field (here additionally annotated omit-empty and
holding its zero value, so src/dal/collection.go:105 skips it before the
identity check on line 110 can run) and a struct field literally named
"ID".  `MakeRecord` selects the "ID" field's value 7 as `Record.ID`, not
the explicitly annotated field's value — the claimed precedence fails. -/
theorem C2_explicit_identity_not_selected :
    (∃ g ∈ c2Input, g.identity = true) ∧
    (∃ g ∈ c2Input, g.name = "ID") ∧
    (makeRecord c2Collection c2Input).id = Value.vint 7 ∧
    (∀ g ∈ c2Input, g.identity = true →
      (makeRecord c2Collection c2Input).id ≠ g.value) := by
  decide

/-- C2 (amended): identity resolution prefers the explicitly annotated
identity field over the collection identity-field tag and over a field
literally named "ID", provided the annotated field survives the omit-empty
skip (it is not both omit-empty and zero-valued) and carries a non-nil
value; when several identity-annotated survivors exist they must agree, as
Go map iteration order would otherwise pick an arbitrary one. -/
theorem C2_amended_identity_precedence (c : MCollection) (l : List StructField)
    (f : StructField) (hf : f ∈ l) (hid : f.identity = true)
    (hskip : (f.omitEmpty && f.value.isZero) = false)
    (hnn : f.value ≠ Value.vnil)
    (honly : ∀ g ∈ l, g.identity = true → g.value = f.value) :
    (makeRecord c l).id = f.value := by
  have h1 : (makeRecordLoop (c.fields.map fun x => x.name) l ⟨Value.vnil, []⟩).id = f.value :=
    makeRecordLoop_id_set _ f.value l _ (fun g hg ha _ => honly g hg ha) ⟨f, hf, hid, hskip⟩
  simp only [makeRecord]
  set r1 := makeRecordLoop (c.fields.map fun x => x.name) l (⟨Value.vnil, []⟩ : Record) with hr1
  have hid1 : ¬(r1.id = Value.vnil) := by rw [h1]; exact hnn
  have h2 : makeRecordPhase2 c l r1 = r1 := by
    unfold makeRecordPhase2
    rw [if_neg hid1]
  have h3 : makeRecordPhase3 l r1 = r1 := by
    unfold makeRecordPhase3
    rw [if_neg hid1]
  rw [h2, h3, h1]

/-- C2 witness: the amended precedence at a concrete input combining an
explicitly annotated identity field with a field named "ID". -/
theorem C2_amended_identity_precedence_witness :
    c2wIdent ∈ c2wInput ∧ c2wIdent.identity = true ∧
    (c2wIdent.omitEmpty && c2wIdent.value.isZero) = false ∧
    c2wIdent.value ≠ Value.vnil ∧
    (makeRecord c2wCollection c2wInput).id = c2wIdent.value :=
  ⟨by decide, by decide, by decide, by decide,
   C2_amended_identity_precedence c2wCollection c2wInput c2wIdent (by decide) (by decide)
     (by decide) (by decide) (by decide)⟩

/-- A key present after a Go map assignment is the assigned key or was
already present. -/
theorem setAssoc_keys (fl : List (String × Value)) (k : String) (v : Value) :
    ∀ x, x ∈ (setAssoc fl k v).map Prod.fst → x = k ∨ x ∈ fl.map Prod.fst := by
  induction fl with
  | nil =>
      intro x hx
      simp [setAssoc] at hx
      exact Or.inl hx
  | cons kv rest ih =>
      intro x hx
      by_cases hk : kv.1 = k
      · rw [setAssoc, if_pos hk] at hx
        simp only [List.map_cons, List.mem_cons] at hx
        rcases hx with rfl | hx
        · exact Or.inl rfl
        · exact Or.inr (by simp [hx])
      · rw [setAssoc, if_neg hk] at hx
        simp only [List.map_cons, List.mem_cons] at hx
        rcases hx with rfl | hx
        · exact Or.inr (by simp)
        · rcases ih x hx with h | h
          · exact Or.inl h
          · exact Or.inr (by simp [h])

/-- A key present after a Go map delete was present before. -/
theorem delAssoc_keys_subset (fl : List (String × Value)) (k x : String) :
    x ∈ (delAssoc fl k).map Prod.fst → x ∈ fl.map Prod.fst := by
  intro hx
  simp only [delAssoc, List.mem_map] at hx
  obtain ⟨kv, hkv, rfl⟩ := hx
  exact List.mem_map.mpr ⟨kv, (List.mem_filter.mp hkv).1, rfl⟩

/-- The deleted key itself is gone after a Go map delete. -/
theorem delAssoc_key_not_mem (fl : List (String × Value)) (k : String) :
    k ∉ (delAssoc fl k).map Prod.fst := by
  intro hk
  simp only [delAssoc, List.mem_map] at hk
  obtain ⟨kv, hkv, hfst⟩ := hk
  have := (List.mem_filter.mp hkv).2
  simp [hfst] at this

/-- Every key the mapping loop ever stores comes from a descriptor that is
not identity-annotated: the explicit identity branch never writes into the
field mapping. -/
theorem makeRecordLoop_keys (a : List String) :
    ∀ (l : List StructField) (r : Record) (x : String),
      x ∈ (makeRecordLoop a l r).fields.map Prod.fst →
      x ∈ r.fields.map Prod.fst ∨ ∃ g ∈ l, g.identity = false ∧ g.tag = x := by
  intro l
  induction l with
  | nil => intro r x hx; exact Or.inl hx
  | cons f rest ih =>
      intro r x hx
      cases hskip : (f.omitEmpty && f.value.isZero) with
      | true =>
          simp only [makeRecordLoop, hskip, if_true] at hx
          rcases ih r x hx with h | ⟨g, hg, h1, h2⟩
          · exact Or.inl h
          · exact Or.inr ⟨g, List.mem_cons_of_mem _ hg, h1, h2⟩
      | false =>
          cases hid : f.identity with
          | true =>
              simp only [makeRecordLoop, hskip, hid] at hx
              simp only [Bool.false_eq_true, if_false, if_true] at hx
              rcases ih _ x hx with h | ⟨g, hg, h1, h2⟩
              · exact Or.inl h
              · exact Or.inr ⟨g, List.mem_cons_of_mem _ hg, h1, h2⟩
          | false =>
              cases hct : a.contains f.tag with
              | true =>
                  simp only [makeRecordLoop, hskip, hid, hct] at hx
                  simp only [Bool.false_eq_true, if_false, if_true] at hx
                  rcases ih _ x hx with h | ⟨g, hg, h1, h2⟩
                  · rcases setAssoc_keys r.fields f.tag f.value x h with rfl | h'
                    · exact Or.inr ⟨f, List.mem_cons_self _ _, hid, rfl⟩
                    · exact Or.inl h'
                  · exact Or.inr ⟨g, List.mem_cons_of_mem _ hg, h1, h2⟩
              | false =>
                  simp only [makeRecordLoop, hskip, hid, hct] at hx
                  simp only [Bool.false_eq_true, if_false] at hx
                  rcases ih _ x hx with h | ⟨g, hg, h1, h2⟩
                  · exact Or.inl h
                  · exact Or.inr ⟨g, List.mem_cons_of_mem _ hg, h1, h2⟩

/-- Fallback (b) only deletes from the field mapping. -/
theorem makeRecordPhase2_keys (c : MCollection) (l : List StructField)
    (r : Record) (x : String) :
    x ∈ (makeRecordPhase2 c l r).fields.map Prod.fst → x ∈ r.fields.map Prod.fst := by
  unfold makeRecordPhase2
  by_cases h : r.id = Value.vnil
  · rw [if_pos h]
    cases hfind : l.find? (fun g => g.tag = c.identityField) with
    | none => exact id
    | some g => exact fun hx => delAssoc_keys_subset _ _ _ hx
  · rw [if_neg h]; exact id

/-- Fallback (c) only deletes from the field mapping. -/
theorem makeRecordPhase3_keys (l : List StructField) (r : Record) (x : String) :
    x ∈ (makeRecordPhase3 l r).fields.map Prod.fst → x ∈ r.fields.map Prod.fst := by
  unfold makeRecordPhase3
  by_cases h : r.id = Value.vnil
  · rw [if_pos h]
    cases hfind : l.find? (fun g => g.name = "ID") with
    | none => exact id
    | some g => exact fun hx => delAssoc_keys_subset _ _ _ hx
  · rw [if_neg h]; exact id

/-- C3 counterexample: a struct field literally named "ID" but tagged
`foo` (a collection field).  It wins identity resolution through fallback
(c), yet its mapping entry survives, because src/dal/collection.go:133
deletes the literal key "ID" while the field was stored under its tag
`foo`: the returned record carries the identity-winning field both as
`Record.ID` and inside `Record.Fields`. -/
theorem C3_identity_key_survives :
    (makeRecord c3Collection c3Input).id = Value.vint 5 ∧
    ("foo", Value.vint 5) ∈ (makeRecord c3Collection c3Input).fields ∧
    (∃ g ∈ c3Input, g.name = "ID" ∧ g.tag = "foo" ∧ g.value = Value.vint 5) := by
  decide

/-- C3 (amended): the identity winner's key is absent from the returned
field mapping whenever (a) the winner is an explicitly identity-annotated
field (the identity branch never stores it), or (b) with no
identity-annotated fields the winner is the descriptor whose tag equals
the collection identity field (its tag key is deleted), or (c) with no
identity-annotated fields and no identity-field tag the winner is the
struct field named "ID" and its tag key is the literal "ID" that fallback
(c) deletes; a field named "ID" stored under a different tag stays in the
mapping.  Tags are assumed pairwise distinct, as duplicate tags would
collide in the Go descriptor map. -/
theorem C3_amended_identity_key_absent (c : MCollection) (l : List StructField)
    (hnd : (l.map (fun g => g.tag)).Nodup) :
    (∀ f ∈ l, f.identity = true →
      f.tag ∉ (makeRecord c l).fields.map Prod.fst) ∧
    ((∀ g ∈ l, g.identity = false) →
      ∀ g, l.find? (fun g => g.tag = c.identityField) = some g →
        c.identityField ∉ (makeRecord c l).fields.map Prod.fst) ∧
    ((∀ g ∈ l, g.identity = false) →
      l.find? (fun g => g.tag = c.identityField) = none →
      ∀ g, l.find? (fun g => g.name = "ID") = some g → g.tag = "ID" →
        g.tag ∉ (makeRecord c l).fields.map Prod.fst) := by
  refine ⟨?_, ?_, ?_⟩
  · intro f hf hfid hmem
    simp only [makeRecord] at hmem
    have hmem2 := makeRecordPhase2_keys c l _ _ (makeRecordPhase3_keys l _ _ hmem)
    rcases makeRecordLoop_keys _ l ⟨Value.vnil, []⟩ f.tag hmem2 with h | ⟨g, hg, hgid, hgtag⟩
    · simp at h
    · have hgf : g = f := List.inj_on_of_nodup_map hnd hg hf hgtag
      rw [hgf, hfid] at hgid
      cases hgid
  · intro hnone g hfind hmem
    have hr1id : (makeRecordLoop (c.fields.map fun x => x.name) l ⟨Value.vnil, []⟩).id
        = Value.vnil :=
      makeRecordLoop_id_frame _ l _ (fun g' hg' h => by rw [hnone g' hg'] at h; cases h)
    simp only [makeRecord] at hmem
    set r1 := makeRecordLoop (c.fields.map fun x => x.name) l (⟨Value.vnil, []⟩ : Record)
      with hr1
    have h2 : makeRecordPhase2 c l r1 = { r1.del g.tag with id := g.value } := by
      unfold makeRecordPhase2
      rw [if_pos hr1id, hfind]
    rw [h2] at hmem
    have hmem2 := makeRecordPhase3_keys l _ _ hmem
    have hgt : g.tag = c.identityField := by simpa using List.find?_some hfind
    rw [← hgt] at hmem2
    exact delAssoc_key_not_mem _ _ hmem2
  · intro hnone hfind2 g hfindID hgtag hmem
    have hr1id : (makeRecordLoop (c.fields.map fun x => x.name) l ⟨Value.vnil, []⟩).id
        = Value.vnil :=
      makeRecordLoop_id_frame _ l _ (fun g' hg' h => by rw [hnone g' hg'] at h; cases h)
    simp only [makeRecord] at hmem
    set r1 := makeRecordLoop (c.fields.map fun x => x.name) l (⟨Value.vnil, []⟩ : Record)
      with hr1
    have h2 : makeRecordPhase2 c l r1 = r1 := by
      unfold makeRecordPhase2
      rw [if_pos hr1id, hfind2]
    rw [h2] at hmem
    have h3 : makeRecordPhase3 l r1 = { r1.del "ID" with id := g.value } := by
      unfold makeRecordPhase3
      rw [if_pos hr1id, hfindID]
    rw [h3] at hmem
    rw [hgtag] at hmem
    exact delAssoc_key_not_mem _ _ hmem

/-- C3 witness: the amended invariant at concrete inputs — an explicitly
annotated identity field whose tag stays out of the mapping, and an
untagged "ID"-named field (tag "ID") stripped by fallback (c). -/
theorem C3_amended_identity_key_absent_witness :
    ((c3wInputA.map (fun g => g.tag)).Nodup ∧
      "key" ∉ (makeRecord c3wCollectionA c3wInputA).fields.map Prod.fst) ∧
    ((c3wInputC.map (fun g => g.tag)).Nodup ∧
      "ID" ∉ (makeRecord c3wCollectionC c3wInputC).fields.map Prod.fst) := by
  constructor
  · refine ⟨by decide, ?_⟩
    exact (C3_amended_identity_key_absent c3wCollectionA c3wInputA (by decide)).1
      ⟨"Key", "key", Value.vint 5, false, true⟩ (by decide) (by decide)
  · refine ⟨by decide, ?_⟩
    exact (C3_amended_identity_key_absent c3wCollectionC c3wInputC (by decide)).2.2
      (by decide) (by decide) ⟨"ID", "ID", Value.vint 3, false, false⟩ (by decide) (by decide)
